import Mathlib

/-!
Verification of the reaction-vessel simulation in
`nonconstructive_explicit.py`.

The Python source is embedded shallowly:

* `Molecule` objects compare and hash by identity, so a molecule type is
  modelled as a natural-number identifier (`Mol`); distinct declared objects
  get distinct identifiers.
* Python dicts keyed by molecules are modelled as insertion-ordered
  association lists with unique keys; `dictGet` is `d[k]` (with `none` for a
  `KeyError`) and `dictSet` is `d[k] = v` (update in place when the key
  exists, append otherwise), and iterating `d.items()` is iterating the list.
* The global `random` generator is made explicit: the positions chosen by
  `random.sample` and the slot chosen by `random.randrange` are passed to
  `simulate_step` as arguments.
* A step that raises an exception is modelled by `StepOutcome.err` carrying
  the vessel state at the moment of the raise; in the source the single
  mutation `self.molecules[...] = product` is the last statement of
  `simulate_step`, so every exception leaves the pre-step state in place.
-/

/-- A molecule type. Python `Molecule` objects compare by identity, so each
declared object is modelled by a distinct natural-number identifier. -/
abbrev Mol := Nat

/-- Lookup `d[k]` in a Python dict modelled as an association list;
`none` models a `KeyError`. -/
def dictGet : List (Mol × Nat) → Mol → Option Nat
  | [], _ => none
  | (k', v') :: rest, k => if k = k' then some v' else dictGet rest k

/-- Assignment `d[k] = v`: update in place when the key exists, append
otherwise (Python dicts keep insertion order). -/
def dictSet : List (Mol × Nat) → Mol → Nat → List (Mol × Nat)
  | [], k, v => [(k, v)]
  | (k', v') :: rest, k, v =>
    if k = k' then (k', v) :: rest else (k', v') :: dictSet rest k v

/-- First loop of `Molecule.molecules_to_amounts`:
`for type_of_molecule in all_molecules: molecule_amounts[type_of_molecule] = 0`. -/
def zeroInit : List (Mol × Nat) → List Mol → List (Mol × Nat)
  | d, [] => d
  | d, t :: rest => zeroInit (dictSet d t 0) rest

/-- Second loop of `Molecule.molecules_to_amounts`:
`for molecule in molecules: molecule_amounts[molecule] += 1`;
`none` models the `KeyError` raised when `molecule` is not among the keys. -/
def tallyLoop : List (Mol × Nat) → List Mol → Option (List (Mol × Nat))
  | d, [] => some d
  | d, m :: rest =>
    match dictGet d m with
    | none => none
    | some v => tallyLoop (dictSet d m (v + 1)) rest

/-- `Molecule.molecules_to_amounts(all_molecules, molecules)`. -/
def molecules_to_amounts (all_molecules molecules : List Mol) :
    Option (List (Mol × Nat)) :=
  tallyLoop (zeroInit [] all_molecules) molecules

/-- A `Reaction` rule: required reactant amounts and the single product. -/
structure Reaction where
  reactants_needed : List (Mol × Nat)
  product : Mol
deriving DecidableEq

/-- `Reaction.can_occur(reactants_amounts)`: iterate over the items of the
*supplied* counts dict, comparing each amount with
`self.reactants_needed[reactant]`; `none` models the `KeyError` raised when a
counts key has no entry in `reactants_needed`. -/
def can_occur (r : Reaction) : List (Mol × Nat) → Option Bool
  | [] => some true
  | (reactant, amount) :: rest =>
    match dictGet r.reactants_needed reactant with
    | none => none
    | some needed => if amount < needed then some false else can_occur r rest

/-- The vessel state: declared types, the population list, the rule table. -/
structure Vessel where
  molecule_types : List Mol
  molecules : List Mol
  reactions : List Reaction
deriving DecidableEq

/-- `Vessel.__init__`: stores the types and rules as given and builds the
population by extending an empty list with `amount` copies of each molecule
of `molecule_amounts`; the source performs no validation of any kind. -/
def vessel_init (molecule_types : List Mol) (molecule_amounts : List (Mol × Nat))
    (reactions : List Reaction) : Vessel :=
  { molecule_types := molecule_types
    molecules := molecule_amounts.foldl (fun acc p => acc ++ List.replicate p.2 p.1) []
    reactions := reactions }

/-- Outcome of one `simulate_step` call: `ok` for a normal return, `err` for a
raised exception, each carrying the vessel state afterwards. -/
inductive StepOutcome where
  | ok (v : Vessel)
  | err (v : Vessel)
deriving DecidableEq

/-- The vessel state after a step, whether it returned or raised. -/
def vesselAfter : StepOutcome → Vessel
  | .ok v => v
  | .err v => v

/-- Values of the population at the positions drawn by `random.sample`. -/
def select_values (molecules : List Mol) (idx : List Nat) : List Mol :=
  idx.filterMap fun j => molecules.get? j

/-- The rule-resolution loop inside `Vessel.simulate_step`
(`for reaction in self.reactions: if reaction.can_occur(...): ... break`):
`some (some r)` is the first rule whose `can_occur` is true, `some none`
means no rule matched, `none` a `KeyError` escaping from `can_occur`. -/
def firstMatch : List Reaction → List (Mol × Nat) → Option (Option Reaction)
  | [], _ => some none
  | r :: rest, counts =>
    match can_occur r counts with
    | none => none
    | some true => some (some r)
    | some false => firstMatch rest counts

/-- `Vessel.simulate_step(number_to_select)`, with the random draws explicit:
`sampleIdx` are the distinct positions chosen by `random.sample` (which
raises `ValueError` when asked for more elements than the population holds)
and `replIdx` is the slot chosen by `random.randrange(len(self.molecules))`
(which raises `ValueError` on an empty population). Every exception is
raised before the single mutation `self.molecules[...] = product`. -/
def simulate_step (v : Vessel) (number_to_select : Nat) (sampleIdx : List Nat)
    (replIdx : Nat) : StepOutcome :=
  if v.molecules.length < number_to_select then .err v
  else
    match molecules_to_amounts v.molecule_types (select_values v.molecules sampleIdx) with
    | none => .err v
    | some reactants_amounts =>
      match firstMatch v.reactions reactants_amounts with
      | none => .err v
      | some none => .ok v
      | some (some reaction) =>
        if v.molecules.length = 0 then .err v
        else .ok { v with molecules := v.molecules.set replIdx reaction.product }

/-- The caller's run loop (`for i in range(iters): vessel.simulate_step(2)`),
driven by a list of random draws; a raised exception aborts the loop. -/
def run_loop (number_to_select : Nat) : Vessel → List (List Nat × Nat) → StepOutcome
  | v, [] => .ok v
  | v, draw :: rest =>
    match simulate_step v number_to_select draw.1 draw.2 with
    | .ok w => run_loop number_to_select w rest
    | .err w => .err w

/-- The per-step concentration computation of `simulate_basic`:
`amount * 100.0 / total_amount` for each declared type, in dict order;
the floats are modelled as exact rationals. -/
def step_concentrations (all molecules : List Mol) (total : Nat) :
    Option (List Rat) :=
  (molecules_to_amounts all molecules).map fun d =>
    d.map fun p => ((p.2 : Rat) * 100) / (total : Rat)

/-- The observation stream of `simulate_basic`: after every step the step
index and the per-type concentrations are appended to the plot data; a
raised exception ends the stream. -/
def run_emissions (number_to_select total : Nat) :
    Vessel → Nat → List (List Nat × Nat) → List (Nat × Option (List Rat))
  | _, _, [] => []
  | v, i, draw :: rest =>
    match simulate_step v number_to_select draw.1 draw.2 with
    | .err _ => []
    | .ok w =>
      (i + 1, step_concentrations w.molecule_types w.molecules total) ::
        run_emissions number_to_select total w (i + 1) rest

/-! ### Association-list lemmas -/

theorem dictGet_dictSet (d : List (Mol × Nat)) (k : Mol) (v : Nat) (k' : Mol) :
    dictGet (dictSet d k v) k' = if k' = k then some v else dictGet d k' := by
  induction d with
  | nil => simp [dictSet, dictGet]
  | cons p rest ih =>
    obtain ⟨k₀, v₀⟩ := p
    by_cases h : k = k₀
    · subst h
      by_cases h' : k' = k <;> simp [dictSet, dictGet, h']
    · by_cases h' : k' = k₀
      · subst h'
        simp [dictSet, dictGet, h, Ne.symm h, ih]
      · simp [dictSet, dictGet, h, h', ih]

theorem zeroInit_get (all : List Mol) :
    ∀ (d : List (Mol × Nat)) (t : Mol),
      dictGet (zeroInit d all) t = if t ∈ all then some 0 else dictGet d t := by
  induction all with
  | nil => intro d t; simp [zeroInit]
  | cons a rest ih =>
    intro d t
    rw [zeroInit, ih, dictGet_dictSet]
    by_cases h1 : t ∈ rest
    · simp [h1]
    · by_cases h2 : t = a <;> simp [h1, h2]

theorem tallyLoop_spec (ms : List Mol) :
    ∀ (d : List (Mol × Nat)), (∀ m ∈ ms, (dictGet d m).isSome) →
      ∃ d', tallyLoop d ms = some d' ∧
        ∀ t, dictGet d' t = (dictGet d t).map (· + ms.count t) := by
  induction ms with
  | nil =>
    intro d _
    refine ⟨d, rfl, fun t => ?_⟩
    cases dictGet d t <;> simp
  | cons m rest ih =>
    intro d h
    obtain ⟨v, hv⟩ := Option.isSome_iff_exists.mp (h m (by simp))
    have hrest : ∀ m' ∈ rest, (dictGet (dictSet d m (v + 1)) m').isSome := by
      intro m' hm'
      rw [dictGet_dictSet]
      by_cases hm : m' = m
      · simp [hm]
      · simpa [hm] using h m' (by simp [hm'])
    obtain ⟨d', hd', hget⟩ := ih (dictSet d m (v + 1)) hrest
    refine ⟨d', ?_, fun t => ?_⟩
    · rw [tallyLoop, hv]; exact hd'
    · rw [hget t, dictGet_dictSet]
      by_cases ht : t = m
      · subst ht
        simp [hv, List.count_cons]
        omega
      · simp [ht, List.count_cons, Ne.symm ht]

theorem get?_set_self (l : List Mol) :
    ∀ (i : Nat) (a : Mol), i < l.length → (l.set i a).get? i = some a := by
  induction l with
  | nil => intro i a h; simp at h
  | cons b rest ih =>
    intro i a h
    cases i with
    | zero => simp [List.set]
    | succ n =>
      rw [List.set]
      simpa using ih n a (by simpa using h)

theorem get?_set_other (l : List Mol) :
    ∀ (i j : Nat) (a : Mol), j ≠ i → (l.set i a).get? j = l.get? j := by
  induction l with
  | nil => intro i j a _; simp
  | cons b rest ih =>
    intro i j a h
    cases i with
    | zero =>
      cases j with
      | zero => exact absurd rfl h
      | succ m => simp [List.set]
    | succ n =>
      cases j with
      | zero => simp [List.set]
      | succ m =>
        rw [List.set]
        simpa using ih n m a (by omega)

/-! ### Lemmas about the rule-resolution loop -/

theorem firstMatch_all_false (rs : List Reaction) (counts : List (Mol × Nat))
    (h : ∀ r ∈ rs, can_occur r counts = some false) :
    firstMatch rs counts = some none := by
  induction rs with
  | nil => rfl
  | cons r rest ih =>
    rw [firstMatch, h r (by simp)]
    exact ih fun r' hr' => h r' (by simp [hr'])

theorem firstMatch_no_true (rs : List Reaction) (counts : List (Mol × Nat))
    (h : ∀ r ∈ rs, can_occur r counts ≠ some true) :
    firstMatch rs counts = some none ∨ firstMatch rs counts = none := by
  induction rs with
  | nil => exact Or.inl rfl
  | cons r rest ih =>
    rw [firstMatch]
    rcases hr : can_occur r counts with _ | b
    · exact Or.inr rfl
    · cases b with
      | true => exact absurd hr (h r (by simp))
      | false => exact ih fun r' hr' => h r' (by simp [hr'])

theorem firstMatch_of_first (pre : List Reaction) (r : Reaction)
    (post : List Reaction) (counts : List (Mol × Nat))
    (hpre : ∀ r' ∈ pre, can_occur r' counts = some false)
    (hr : can_occur r counts = some true) :
    firstMatch (pre ++ r :: post) counts = some (some r) := by
  induction pre with
  | nil => rw [List.nil_append, firstMatch, hr]
  | cons q rest ih =>
    rw [List.cons_append, firstMatch, hpre q (by simp)]
    exact ih fun r' hr' => hpre r' (by simp [hr'])

theorem firstMatch_of_err (pre : List Reaction) (r : Reaction)
    (post : List Reaction) (counts : List (Mol × Nat))
    (hpre : ∀ r' ∈ pre, can_occur r' counts = some false)
    (hr : can_occur r counts = none) :
    firstMatch (pre ++ r :: post) counts = none := by
  induction pre with
  | nil => rw [List.nil_append, firstMatch, hr]
  | cons q rest ih =>
    rw [List.cons_append, firstMatch, hpre q (by simp)]
    exact ih fun r' hr' => hpre r' (by simp [hr'])

/-! ### Claim theorems -/

/-- C1: every call of `simulate_step` — whatever the sampled reactants, whether
or not any rule matches, and also when the call raises — leaves the length of
the population list exactly what it was before the call. -/
theorem step_preserves_population_length (v : Vessel) (k : Nat)
    (sampleIdx : List Nat) (replIdx : Nat) :
    (vesselAfter (simulate_step v k sampleIdx replIdx)).molecules.length
      = v.molecules.length := by
  unfold simulate_step
  split
  · rfl
  · split
    · rfl
    · split
      · rfl
      · rfl
      · split
        · rfl
        · simp [vesselAfter]

/-- C4: when every element of the sample occurs among the declared types,
`molecules_to_amounts` succeeds and returns a mapping whose key set is
exactly the set of declared types, sending each type to its number of
occurrences in the sample (0 when absent, all zeros for the empty sample). -/
theorem molecules_to_amounts_total (all sample : List Mol)
    (h : ∀ m ∈ sample, m ∈ all) :
    ∃ d, molecules_to_amounts all sample = some d ∧
      (∀ t, (dictGet d t).isSome ↔ t ∈ all) ∧
      (∀ t ∈ all, dictGet d t = some (sample.count t)) := by
  have hzero : ∀ t, dictGet (zeroInit [] all) t = if t ∈ all then some 0 else none := by
    intro t
    rw [zeroInit_get]
    split <;> rfl
  obtain ⟨d, hd, hget⟩ := tallyLoop_spec sample (zeroInit [] all) (by
    intro m hm
    rw [hzero m, if_pos (h m hm)]
    rfl)
  refine ⟨d, hd, fun t => ?_, fun t ht => ?_⟩
  · rw [hget t, hzero t]
    by_cases hta : t ∈ all <;> simp [hta]
  · rw [hget t, hzero t, if_pos ht]
    simp

/-- C4 witness: a concrete tally over declared types `[0, 1]` with sample
`[0, 0, 1]`. -/
theorem molecules_to_amounts_total_witness :
    ∃ d, molecules_to_amounts [0, 1] [0, 0, 1] = some d ∧
      (∀ t, (dictGet d t).isSome ↔ t ∈ [0, 1]) ∧
      (∀ t ∈ [(0 : Mol), 1], dictGet d t = some (List.count t [0, 0, 1])) :=
  molecules_to_amounts_total [0, 1] [0, 0, 1] (by decide)

/-- C2 counterexample: the claim asserts that with an empty requirement
mapping `can_occur` returns true for every counts mapping that is total over
the declared types; but for declared types `[0]` the tallied counts of the
empty sample are `[(0, 0)]`, on which a rule with empty requirement raises a
`KeyError` (modelled by `none`) instead of returning true — `can_occur`
iterates over the counts keys and looks each up in the requirement. -/
theorem can_occur_empty_requirement_raises :
    molecules_to_amounts [0] [] = some [(0, 0)] ∧
      can_occur ⟨[], 0⟩ [(0, 0)] = none :=
  ⟨rfl, rfl⟩

/-- C2 (amended): provided the rule's requirement has an entry for every key
of the counts mapping — as is the case when both are total mappings over the
declared types — `can_occur` returns a boolean, and returns true exactly when
every consulted requirement entry is covered: for every counts item
`(t, amount)` the required amount of `t` is at most `amount`. With an empty
requirement and a nonempty counts mapping the call instead raises `KeyError`
(see the counterexample). -/
theorem can_occur_total_spec (r : Reaction) (counts : List (Mol × Nat))
    (h : ∀ p ∈ counts, (dictGet r.reactants_needed p.1).isSome) :
    ∃ b, can_occur r counts = some b ∧
      (b = true ↔ ∀ p ∈ counts, ∀ needed,
        dictGet r.reactants_needed p.1 = some needed → needed ≤ p.2) := by
  induction counts with
  | nil => exact ⟨true, rfl, by simp⟩
  | cons p rest ih =>
    obtain ⟨t, a⟩ := p
    obtain ⟨needed, hneed⟩ :=
      Option.isSome_iff_exists.mp (h (t, a) (by simp))
    by_cases hlt : a < needed
    · refine ⟨false, by simp [can_occur, hneed, hlt], ?_⟩
      constructor
      · intro hfalse; cases hfalse
      · intro hall
        have := hall (t, a) (by simp) needed hneed
        omega
    · obtain ⟨b, hb, hiff⟩ := ih fun q hq => h q (by simp [hq])
      refine ⟨b, by simp [can_occur, hneed, hlt, hb], ?_⟩
      rw [hiff]
      constructor
      · intro hall q hq needed' hneed'
        rcases List.mem_cons.mp hq with hq1 | hq2
        · subst hq1
          rw [hneed] at hneed'
          cases hneed'
          omega
        · exact hall q hq2 needed' hneed'
      · intro hall q hq needed' hneed'
        exact hall q (by simp [hq]) needed' hneed'

/-- C2 witness: the amended characterisation evaluated at a concrete rule
with requirement total over the declared types `[0, 1]`. -/
theorem can_occur_total_spec_witness :
    ∃ b, can_occur ⟨[(0, 1), (1, 0)], 0⟩ [(0, 1), (1, 1)] = some b ∧
      (b = true ↔ ∀ p ∈ [((0 : Mol), (1 : Nat)), (1, 1)], ∀ needed,
        dictGet [(0, 1), (1, 0)] p.1 = some needed → needed ≤ p.2) :=
  can_occur_total_spec ⟨[(0, 1), (1, 0)], 0⟩ [(0, 1), (1, 1)] (by decide)

/-- C3 counterexample: the claim asserts that for every rule table the rule
applied by a step is the first rule whose `can_occur` returns true. Here the
tallied counts are `[(0, 1)]`, the second rule's `can_occur` returns true,
yet the step applies no rule at all: the first rule's `can_occur` raises a
`KeyError` (its requirement dict is empty), which aborts the step. -/
theorem step_skips_satisfied_rule_after_keyerror :
    molecules_to_amounts [0] (select_values [0] [0]) = some [(0, 1)] ∧
      can_occur ⟨[(0, 0)], 0⟩ [(0, 1)] = some true ∧
      simulate_step ⟨[0], [0], [⟨[], 0⟩, ⟨[(0, 0)], 0⟩]⟩ 1 [0] 0
        = .err ⟨[0], [0], [⟨[], 0⟩, ⟨[(0, 0)], 0⟩]⟩ :=
  ⟨rfl, rfl, rfl⟩

/-- C3 (amended): as long as the scan does not hit a `KeyError` — in
particular whenever each earlier rule's `can_occur` returns false — the rule
applied by a step is exactly the first rule in table order whose `can_occur`
returns true, and the product written into the population is that rule's
product; if every rule's `can_occur` returns false, no rule is applied. If a
rule's `can_occur` raises `KeyError` before a match is found, the step aborts
and no rule — not even a later satisfied one — is applied. -/
theorem simulate_step_rule_precedence (v : Vessel) (k : Nat) (sampleIdx : List Nat)
    (replIdx : Nat) (counts : List (Mol × Nat)) (hk : k ≤ v.molecules.length)
    (hi : replIdx < v.molecules.length)
    (hc : molecules_to_amounts v.molecule_types (select_values v.molecules sampleIdx)
      = some counts) :
    (∀ pre r post, v.reactions = pre ++ r :: post →
      (∀ r' ∈ pre, can_occur r' counts = some false) →
      can_occur r counts = some true →
      simulate_step v k sampleIdx replIdx
        = .ok { v with molecules := v.molecules.set replIdx r.product }) ∧
    ((∀ r' ∈ v.reactions, can_occur r' counts = some false) →
      simulate_step v k sampleIdx replIdx = .ok v) ∧
    (∀ pre r post, v.reactions = pre ++ r :: post →
      (∀ r' ∈ pre, can_occur r' counts = some false) →
      can_occur r counts = none →
      simulate_step v k sampleIdx replIdx = .err v) := by
  refine ⟨fun pre r post hsplit hpre hr => ?_, fun hall => ?_,
    fun pre r post hsplit hpre hr => ?_⟩
  · have hfm : firstMatch v.reactions counts = some (some r) := by
      rw [hsplit]; exact firstMatch_of_first pre r post counts hpre hr
    unfold simulate_step
    rw [if_neg (by omega)]
    simp only [hc, hfm]
    rw [if_neg (by omega)]
  · have hfm : firstMatch v.reactions counts = some none :=
      firstMatch_all_false v.reactions counts hall
    unfold simulate_step
    rw [if_neg (by omega)]
    simp only [hc, hfm]
  · have hfm : firstMatch v.reactions counts = none := by
      rw [hsplit]; exact firstMatch_of_err pre r post counts hpre hr
    unfold simulate_step
    rw [if_neg (by omega)]
    simp only [hc, hfm]

/-- C3 witness: the two-rule table of the sample scenario — both rules are
checked on counts `[(0, 1), (1, 1)]`, the first is satisfied and its product
is the one written. -/
theorem simulate_step_rule_precedence_witness :
    simulate_step ⟨[0, 1], [0, 1], [⟨[(0, 1), (1, 1)], 0⟩, ⟨[(0, 0), (1, 0)], 1⟩]⟩
        2 [0, 1] 0
      = .ok ⟨[0, 1], List.set [0, 1] 0 0, [⟨[(0, 1), (1, 1)], 0⟩, ⟨[(0, 0), (1, 0)], 1⟩]⟩ :=
  (simulate_step_rule_precedence ⟨[0, 1], [0, 1], [⟨[(0, 1), (1, 1)], 0⟩, ⟨[(0, 0), (1, 0)], 1⟩]⟩
      2 [0, 1] 0 [(0, 1), (1, 1)] (by decide) (by decide) (by decide)).1
    [] ⟨[(0, 1), (1, 1)], 0⟩ [⟨[(0, 0), (1, 0)], 1⟩] rfl (by decide) (by decide)

/-- C5: when no rule of the table has `can_occur` true on the counts tallied
from the sampled reactants, the step leaves the vessel — in particular every
position of the population list — exactly as it was before the step. -/
theorem simulate_step_no_match (v : Vessel) (k : Nat) (sampleIdx : List Nat)
    (replIdx : Nat) (counts : List (Mol × Nat))
    (hc : molecules_to_amounts v.molecule_types (select_values v.molecules sampleIdx)
      = some counts)
    (h : ∀ r ∈ v.reactions, can_occur r counts ≠ some true) :
    vesselAfter (simulate_step v k sampleIdx replIdx) = v ∧
      ∀ j, (vesselAfter (simulate_step v k sampleIdx replIdx)).molecules.get? j
        = v.molecules.get? j := by
  have hmain : vesselAfter (simulate_step v k sampleIdx replIdx) = v := by
    unfold simulate_step
    by_cases hk : v.molecules.length < k
    · rw [if_pos hk]; rfl
    · rw [if_neg hk]
      simp only [hc]
      rcases firstMatch_no_true v.reactions counts h with hfm | hfm
      · simp only [hfm]; rfl
      · simp only [hfm]; rfl
  exact ⟨hmain, fun j => by rw [hmain]⟩

/-- C5 witness: a single rule requiring two copies of type 0, sampled counts
`[(0, 1)]` — no rule matches and the vessel is unchanged. -/
theorem simulate_step_no_match_witness :
    vesselAfter (simulate_step ⟨[0], [0], [⟨[(0, 2)], 0⟩]⟩ 1 [0] 0)
        = ⟨[0], [0], [⟨[(0, 2)], 0⟩]⟩ ∧
      ∀ j, (vesselAfter (simulate_step ⟨[0], [0], [⟨[(0, 2)], 0⟩]⟩ 1 [0] 0)).molecules.get? j
        = ([0] : List Mol).get? j :=
  simulate_step_no_match ⟨[0], [0], [⟨[(0, 2)], 0⟩]⟩ 1 [0] 0 [(0, 1)]
    (by decide) (by decide)

/-- C6: when a rule matches, the step succeeds and overwrites exactly one
population position — the randomly drawn slot, with the matched rule's
product — while every other position keeps its previous value and the length
is unchanged; and when a step aborts with an exception, the population is
entirely unchanged (in the source every exception is raised before the single
mutation). -/
theorem simulate_step_single_slot (v : Vessel) (k : Nat) (sampleIdx : List Nat)
    (replIdx : Nat) :
    (∀ counts r, k ≤ v.molecules.length → replIdx < v.molecules.length →
      molecules_to_amounts v.molecule_types (select_values v.molecules sampleIdx)
        = some counts →
      firstMatch v.reactions counts = some (some r) →
      ∃ w, simulate_step v k sampleIdx replIdx = .ok w ∧
        w.molecules.length = v.molecules.length ∧
        w.molecules.get? replIdx = some r.product ∧
        ∀ j, j ≠ replIdx → w.molecules.get? j = v.molecules.get? j) ∧
    (∀ w, simulate_step v k sampleIdx replIdx = .err w → w.molecules = v.molecules) := by
  constructor
  · intro counts r hk hi hc hfm
    refine ⟨{ v with molecules := v.molecules.set replIdx r.product }, ?_, ?_, ?_, ?_⟩
    · unfold simulate_step
      rw [if_neg (by omega)]
      simp only [hc, hfm]
      rw [if_neg (by omega)]
    · simp
    · exact get?_set_self v.molecules replIdx r.product hi
    · intro j hj
      exact get?_set_other v.molecules replIdx j r.product hj
  · intro w hw
    unfold simulate_step at hw
    by_cases hk : v.molecules.length < k
    · rw [if_pos hk] at hw
      cases hw; rfl
    · rw [if_neg hk] at hw
      rcases hm : molecules_to_amounts v.molecule_types (select_values v.molecules sampleIdx)
        with _ | counts
      · simp only [hm] at hw
        cases hw; rfl
      · simp only [hm] at hw
        rcases hf : firstMatch v.reactions counts with _ | ro
        · simp only [hf] at hw
          cases hw; rfl
        · rcases ro with _ | r
          · simp only [hf] at hw
            cases hw
          · simp only [hf] at hw
            by_cases h0 : v.molecules.length = 0
            · rw [if_pos h0] at hw
              cases hw; rfl
            · rw [if_neg h0] at hw
              cases hw

/-- C6 witness: a matching step on population `[1, 0]` overwrites slot 1 with
the matched product and leaves slot 0 untouched. -/
theorem simulate_step_single_slot_witness :
    ∃ w, simulate_step ⟨[0, 1], [1, 0], [⟨[(0, 0), (1, 0)], 0⟩]⟩ 1 [1] 1 = .ok w ∧
      w.molecules.length = ([1, 0] : List Mol).length ∧
      w.molecules.get? 1 = some 0 ∧
      ∀ j, j ≠ 1 → w.molecules.get? j = ([1, 0] : List Mol).get? j :=
  (simulate_step_single_slot ⟨[0, 1], [1, 0], [⟨[(0, 0), (1, 0)], 0⟩]⟩ 1 [1] 1).1
    [(0, 1), (1, 0)] ⟨[(0, 0), (1, 0)], 0⟩ (by decide) (by decide) (by decide) (by decide)

theorem foldl_replicate_length (amounts : List (Mol × Nat)) :
    ∀ acc : List Mol,
      (amounts.foldl (fun acc p => acc ++ List.replicate p.2 p.1) acc).length
        = acc.length + (amounts.map fun p => p.2).sum := by
  induction amounts with
  | nil => intro acc; simp
  | cons p rest ih =>
    intro acc
    rw [List.foldl_cons, ih]
    simp
    omega

/-- C7 counterexample: the claim asserts that invalid configurations fail with
a `ConfigurationError` at construction/start time. But `Vessel.__init__`
validates nothing: constructing with initial amounts that omit declared type 1
succeeds and just yields a shorter population; a per-step sample size of 0 is
accepted by the step; and an out-of-range sample size (2 on a population of 1)
only fails inside the run loop, when `simulate_step` executes it. -/
theorem vessel_construction_never_validates :
    vessel_init [0, 1] [(0, 1)] [] = ⟨[0, 1], [0], []⟩ ∧
      simulate_step ⟨[0], [0], []⟩ 0 [] 0 = .ok ⟨[0], [0], []⟩ ∧
      simulate_step ⟨[0], [0], []⟩ 2 [] 0 = .err ⟨[0], [0], []⟩ :=
  ⟨rfl, rfl, rfl⟩

/-- C7 (amended): construction performs no validation: `Vessel.__init__`
always succeeds, storing the declared types and rules as given and building a
population whose size is the sum of the supplied amounts, whatever types the
amounts or rules mention; a sample size larger than the population is
rejected only when `simulate_step` executes it inside the run loop (and a
sample size of 0 is never rejected at all). -/
theorem vessel_no_validation :
    (∀ (types : List Mol) (amounts : List (Mol × Nat)) (rs : List Reaction),
      (vessel_init types amounts rs).molecule_types = types ∧
      (vessel_init types amounts rs).reactions = rs ∧
      (vessel_init types amounts rs).molecules.length
        = (amounts.map fun p => p.2).sum) ∧
    (∀ (v : Vessel) (k : Nat) (sampleIdx : List Nat) (replIdx : Nat),
      v.molecules.length < k → simulate_step v k sampleIdx replIdx = .err v) := by
  constructor
  · intro types amounts rs
    refine ⟨rfl, rfl, ?_⟩
    rw [vessel_init]
    simpa using foldl_replicate_length amounts []
  · intro v k sampleIdx replIdx h
    unfold simulate_step
    rw [if_pos h]

/-- C7 witness: the deferred sampling error evaluated at a concrete vessel —
asking for 2 reactants out of a population of 1 fails at step time. -/
theorem vessel_no_validation_witness :
    simulate_step ⟨[0, 1], [1], []⟩ 2 [0] 0 = .err ⟨[0, 1], [1], []⟩ :=
  vessel_no_validation.2 ⟨[0, 1], [1], []⟩ 2 [0] 0 (by decide)

/-- C8 counterexample: the claim asserts that once the configured iteration
count has been reached the engine is Done and every further step invocation
fails with an invalid-state error. The code has no such state: after a
completed 4-step run (the configured count for this vessel), a further
`simulate_step` call succeeds like any other step instead of failing. -/
theorem step_accepted_after_run_completes :
    run_loop 1 ⟨[0], [0], []⟩ (List.replicate 4 ([0], 0)) = .ok ⟨[0], [0], []⟩ ∧
      simulate_step ⟨[0], [0], []⟩ 1 [0] 0 = .ok ⟨[0], [0], []⟩ :=
  ⟨rfl, rfl⟩

/-- C8 (amended): there is no Done state: the iteration count lives only in
the caller's loop bound, and once a run of any length has completed, a
further invocation is processed by the ordinary step function on the current
vessel state — it is never rejected with an invalid-state error (no such
error exists in the code). -/
theorem run_loop_no_done_state (v : Vessel) (k : Nat) (rand : List (List Nat × Nat))
    (s : List Nat × Nat) (w : Vessel) (h : run_loop k v rand = .ok w) :
    run_loop k v (rand ++ [s]) = simulate_step w k s.1 s.2 := by
  induction rand generalizing v with
  | nil =>
    rw [run_loop] at h
    cases h
    rw [List.nil_append, run_loop]
    rcases hs : simulate_step w k s.1 s.2 with w' | w'
    · simp only [hs]
      rfl
    · simp only [hs]
  | cons d rest ih =>
    rw [run_loop] at h
    rw [List.cons_append, run_loop]
    rcases hs : simulate_step v k d.1 d.2 with w' | w'
    · simp only [hs] at h ⊢
      exact ih w' h
    · simp only [hs] at h
      cases h

/-- C8 witness: after the 4-step run of the counterexample's configuration,
appending one more draw makes the loop execute exactly one more ordinary
step. -/
theorem run_loop_no_done_state_witness :
    run_loop 1 ⟨[0], [0], []⟩ (List.replicate 4 ([0], 0) ++ [([0], 0)])
      = simulate_step ⟨[0], [0], []⟩ 1 ([0], 0).1 ([0], 0).2 :=
  run_loop_no_done_state ⟨[0], [0], []⟩ 1 (List.replicate 4 ([0], 0)) ([0], 0)
    ⟨[0], [0], []⟩ rfl

/-- C9: determinism under a fixed seed — the random draws are an explicit
stream, and a fixed seed of the shared generator fixes that stream; two
vessels constructed from the same configuration and driven with the same
stream have identical populations after every step and emit identical
(step index, concentrations) sequences. -/
theorem run_determinism (types : List Mol) (amounts : List (Mol × Nat))
    (rs : List Reaction) (v₁ v₂ : Vessel) (k total i : Nat)
    (rand₁ rand₂ : List (List Nat × Nat))
    (hv₁ : v₁ = vessel_init types amounts rs)
    (hv₂ : v₂ = vessel_init types amounts rs) (hr : rand₁ = rand₂) :
    run_emissions k total v₁ i rand₁ = run_emissions k total v₂ i rand₂ ∧
      ∀ n, run_loop k v₁ (rand₁.take n) = run_loop k v₂ (rand₂.take n) := by
  subst hv₁
  subst hv₂
  subst hr
  exact ⟨rfl, fun _ => rfl⟩

/-- C9 witness: two identically constructed single-molecule vessels driven by
the same one-draw stream. -/
theorem run_determinism_witness :
    run_emissions 1 1 (vessel_init [0] [(0, 1)] []) 0 [([0], 0)]
        = run_emissions 1 1 (vessel_init [0] [(0, 1)] []) 0 [([0], 0)] ∧
      ∀ n, run_loop 1 (vessel_init [0] [(0, 1)] [])
            (([([0], 0)] : List (List Nat × Nat)).take n)
        = run_loop 1 (vessel_init [0] [(0, 1)] [])
            (([([0], 0)] : List (List Nat × Nat)).take n) :=
  run_determinism [0] [(0, 1)] [] _ _ 1 1 0 _ _ rfl rfl rfl

theorem can_occur_none_of_missing (r : Reaction) (pre : List (Mol × Nat)) :
    ∀ (t : Mol) (a : Nat) (post : List (Mol × Nat)),
      dictGet r.reactants_needed t = none →
      (∀ q ∈ pre, ∃ needed, dictGet r.reactants_needed q.1 = some needed ∧
        needed ≤ q.2) →
      can_occur r (pre ++ (t, a) :: post) = none := by
  induction pre with
  | nil =>
    intro t a post ht _
    rw [List.nil_append, can_occur]
    simp only [ht]
  | cons q rest ih =>
    intro t a post ht hpre
    obtain ⟨k₀, v₀⟩ := q
    obtain ⟨needed, hn, hle⟩ := hpre (k₀, v₀) (by simp)
    rw [List.cons_append, can_occur]
    simp only [hn]
    rw [if_neg (by omega)]
    exact ih t a post ht fun q' hq' => hpre q' (by simp [hq'])

theorem can_occur_none_imp (counts : List (Mol × Nat)) :
    ∀ (r : Reaction), can_occur r counts = none →
      ∃ pre t a post, counts = pre ++ (t, a) :: post ∧
        dictGet r.reactants_needed t = none ∧
        ∀ q ∈ pre, ∃ needed, dictGet r.reactants_needed q.1 = some needed ∧
          needed ≤ q.2 := by
  induction counts with
  | nil =>
    intro r h
    rw [can_occur] at h
    cases h
  | cons p rest ih =>
    intro r h
    obtain ⟨t₀, a₀⟩ := p
    rcases hd : dictGet r.reactants_needed t₀ with _ | needed
    · exact ⟨[], t₀, a₀, rest, by simp, hd, by simp⟩
    · rw [can_occur] at h
      simp only [hd] at h
      by_cases hlt : a₀ < needed
      · rw [if_pos hlt] at h
        cases h
      · rw [if_neg hlt] at h
        obtain ⟨pre, t, a, post, hcc, ht, hpre⟩ := ih r h
        refine ⟨(t₀, a₀) :: pre, t, a, post, by simp [hcc], ht, ?_⟩
        intro q hq
        rcases List.mem_cons.mp hq with h1 | h2
        · subst h1
          exact ⟨needed, hd, by omega⟩
        · exact hpre q h2

theorem can_occur_req_agree (counts : List (Mol × Nat)) :
    ∀ (req₁ req₂ : List (Mol × Nat)) (p₁ p₂ : Mol),
      (∀ q ∈ counts, dictGet req₁ q.1 = dictGet req₂ q.1) →
      can_occur ⟨req₁, p₁⟩ counts = can_occur ⟨req₂, p₂⟩ counts := by
  induction counts with
  | nil => intro req₁ req₂ p₁ p₂ _; rfl
  | cons q rest ih =>
    intro req₁ req₂ p₁ p₂ h
    obtain ⟨t, a⟩ := q
    have ht : dictGet req₁ t = dictGet req₂ t := h (t, a) (by simp)
    rw [can_occur, can_occur, ← ht]
    rcases hg : dictGet req₁ t with _ | needed
    · rfl
    · simp only []
      by_cases hlt : a < needed
      · rw [if_pos hlt, if_pos hlt]
      · rw [if_neg hlt, if_neg hlt]
        exact ih req₁ req₂ p₁ p₂ fun q' hq' => h q' (by simp [hq'])

/-- C10 counterexample: the claim asserts that `can_occur` raises a `KeyError`
whenever the counts mapping contains a type with no entry in the requirement.
Here counts contain type 1, which has no entry in the requirement `[(0, 3)]`,
yet `can_occur` returns false without raising: iteration stops at the first
item `(0, 0)`, whose amount is below the required 3, before the missing key
is ever looked up. -/
theorem can_occur_missing_key_no_error :
    can_occur ⟨[(0, 3)], 0⟩ [(0, 0), (1, 5)] = some false ∧
      dictGet [(0, 3)] 1 = none :=
  ⟨rfl, rfl⟩

/-- C10 (amended): `can_occur` iterates over the keys of the supplied counts
mapping, looking each up in the rule's requirement: it raises a `KeyError`
exactly when the counts split as `pre ++ (t, a) :: post` with `t` missing
from the requirement and every entry of `pre` satisfying its requirement
(if an earlier entry already fails, `can_occur` returns false before reaching
the missing key); and requirement entries for types absent from counts are
never consulted — two requirements agreeing on every counts key give the
same result — so such an entry can never cause `can_occur` to return false. -/
theorem can_occur_reads_counts_keys :
    (∀ (r : Reaction) (counts : List (Mol × Nat)),
      can_occur r counts = none ↔
        ∃ pre t a post, counts = pre ++ (t, a) :: post ∧
          dictGet r.reactants_needed t = none ∧
          ∀ q ∈ pre, ∃ needed, dictGet r.reactants_needed q.1 = some needed ∧
            needed ≤ q.2) ∧
    (∀ (req₁ req₂ : List (Mol × Nat)) (p₁ p₂ : Mol) (counts : List (Mol × Nat)),
      (∀ q ∈ counts, dictGet req₁ q.1 = dictGet req₂ q.1) →
      can_occur ⟨req₁, p₁⟩ counts = can_occur ⟨req₂, p₂⟩ counts) := by
  constructor
  · intro r counts
    constructor
    · exact can_occur_none_imp counts r
    · intro hex
      obtain ⟨pre, t, a, post, hc, ht, hpre⟩ := hex
      rw [hc]
      exact can_occur_none_of_missing r pre t a post ht hpre
  · intro req₁ req₂ p₁ p₂ counts h
    exact can_occur_req_agree counts req₁ req₂ p₁ p₂ h

/-- C10 witness: the requirement entry `(1, 5)` has no matching counts key and
is never consulted — removing it does not change the result. -/
theorem can_occur_reads_counts_keys_witness :
    can_occur ⟨[(0, 1)], 0⟩ [(0, 2)] = can_occur ⟨[(0, 1), (1, 5)], 1⟩ [(0, 2)] :=
  can_occur_reads_counts_keys.2 [(0, 1)] [(0, 1), (1, 5)] 0 1 [(0, 2)] (by decide)
